import Mathlib

/-!
Verification of the ai-resume-parser analytics and matching services.

Shallow embedding conventions:
- Python sets of skill strings are modelled as Finset String.
- Python dicts keyed by skill name are modelled as Finset String for the
  key set, or as String → Option of a record for keyed lookup.
- Python floats are modelled as exact rationals; round(x, 2) is modelled
  by round-half-to-even on the exact rational value (the rounding mode
  Python uses on the value a float holds).
- Python int(s) on a digit string is digitsToNat; int(f) truncation of a
  non-negative value is the floor.
- A Python function that can raise inside a try/except is modelled with
  Option: none is the exception path.
-/

namespace ResumeParser

/-- Lowercasing of a string, modelling the Python str.lower call (ASCII). -/
def lowerStr (s : String) : String :=
  ⟨s.data.map Char.toLower⟩

/-- Substring test: models the Python expression needle in hay on strings. -/
def containsSub (needle hay : String) : Bool :=
  decide (needle.data <:+: hay.data)

/-- Value of a digit string, modelling Python int on a string of digits. -/
def digitsToNat (ds : List Char) : ℕ :=
  ds.foldl (fun n c => 10 * n + (c.toNat - 48)) 0

/-- Round-half-to-even to an integer, the rounding Python round applies. -/
def roundHE (q : ℚ) : ℤ :=
  if q - ⌊q⌋ < 1 / 2 then ⌊q⌋
  else if 1 / 2 < q - ⌊q⌋ then ⌊q⌋ + 1
  else if 2 ∣ ⌊q⌋ then ⌊q⌋ else ⌊q⌋ + 1

/-- Models the Python call round(x, 2) on an exact rational value. -/
def round2 (q : ℚ) : ℚ :=
  (roundHE (q * 100) : ℚ) / 100

namespace Services

/-!
Embedding of ResumeParserService in src/api/services.py.
The dict arguments are replaced by the fields the code reads from them:
the technical skill set of the resume, the required skill set of the job,
the duration strings of the work experience entries, and the required
experience string.
-/

/-- Months contributed by one work-experience entry in
calculate_total_experience: entries whose duration mentions year
contribute int(all digits concatenated) * 12 and raise (none) when the
duration has no digit; other entries contribute 0. -/
def entryMonthsS (duration : String) : Option ℕ :=
  if containsSub "year" (lowerStr duration) then
    let ds := duration.data.filter Char.isDigit
    if ds = [] then none else some (digitsToNat ds * 12)
  else some 0

/-- Sum of the per-entry months; none as soon as one entry raises,
modelling the single try block around the whole loop. -/
def totalMonthsS : List String → Option ℕ
  | [] => some 0
  | d :: rest =>
    match entryMonthsS d with
    | none => none
    | some m =>
      match totalMonthsS rest with
      | none => none
      | some t => some (m + t)

/-- ResumeParserService._calculate_total_experience: the whole loop sits in
one try/except returning 0, so any raising entry yields 0. -/
def calculate_total_experience (durations : List String) : ℕ :=
  match totalMonthsS durations with
  | some t => t / 12
  | none => 0

/-- ResumeParserService._check_experience_match: an empty requirement is
always matched; otherwise int of the concatenated digits is compared,
and when the string has no digit the int call raises and the except arm
returns False. -/
def check_experience_match (resume_experience : ℕ) (required_experience : String) : Bool :=
  if required_experience = "" then true
  else
    let ds := required_experience.data.filter Char.isDigit
    if ds = [] then false
    else decide (digitsToNat ds ≤ resume_experience)

/-- Result record of calculate_match_score. -/
structure MatchScoreResult where
  match_score : ℚ
  matched_skills : Finset String
  missing_skills : Finset String
  resume_experience : ℕ
  experience_match : Bool
deriving DecidableEq

/-- ResumeParserService.calculate_match_score. -/
def calculate_match_score (resume_skills job_skills : Finset String)
    (durations : List String) (required_experience : String) : MatchScoreResult :=
  let matched := resume_skills ∩ job_skills
  let missing := job_skills \ resume_skills
  let pct : ℚ := if job_skills.Nonempty then (matched.card : ℚ) / job_skills.card * 100 else 0
  let resume_exp := calculate_total_experience durations
  { match_score := round2 pct
    matched_skills := matched
    missing_skills := missing
    resume_experience := resume_exp
    experience_match := check_experience_match resume_exp required_experience }

end Services

/-- Drops leading whitespace, the backslash-s-star part of the patterns. -/
def skipWs (l : List Char) : List Char :=
  l.dropWhile Char.isWhitespace

/-- The literal tail of the year pattern. -/
def litYear : List Char := ['y', 'e', 'a', 'r']

/-- The literal tail of the month pattern. -/
def litMonth : List Char := ['m', 'o', 'n', 't', 'h']

/-- Tries the pattern digits, optional whitespace, a literal, at the head
of the list, returning the value of the digit group. Taking the maximal
digit run is faithful to the regex: a shorter run leaves a digit next,
which can match neither whitespace nor the literal. -/
def matchNumLitAt (lit : List Char) (l : List Char) : Option ℕ :=
  match l with
  | [] => none
  | c :: _ =>
    if c.isDigit then
      let ds := l.takeWhile Char.isDigit
      let rest := l.dropWhile Char.isDigit
      if decide (lit <+: skipWs rest) then some (digitsToNat ds) else none
    else none

/-- Leftmost match of digits, optional whitespace, a literal: models
re.search with a group-1 integer pattern. -/
def searchNumLit (lit : List Char) : List Char → Option ℕ
  | [] => none
  | c :: rest =>
    match matchNumLitAt lit (c :: rest) with
    | some n => some n
    | none => searchNumLit lit rest

/-- Fractional continuation of the year pattern: a dot, more digits,
whitespace, year, given the integer part already read. -/
def matchYearFrac (ip : ℕ) (rest : List Char) : Option ℚ :=
  match rest with
  | '.' :: r2 =>
    match r2 with
    | d2 :: _ =>
      if d2.isDigit then
        let fs := r2.takeWhile Char.isDigit
        let rest2 := r2.dropWhile Char.isDigit
        if decide (litYear <+: skipWs rest2) then
          some ((ip : ℚ) + (digitsToNat fs : ℚ) / (10 : ℚ) ^ fs.length)
        else none
      else none
    | [] => none
  | _ => none

/-- Tries the year pattern with an optional fractional part at the head of
the list: digits, optionally a dot and more digits, whitespace, year.
The greedy fractional branch is tried first and the scanner falls back to
the integer reading, as regex backtracking does. -/
def matchYearAt (l : List Char) : Option ℚ :=
  match l with
  | [] => none
  | c :: _ =>
    if c.isDigit then
      let ds := l.takeWhile Char.isDigit
      let rest := l.dropWhile Char.isDigit
      match matchYearFrac (digitsToNat ds) rest with
      | some q => some q
      | none =>
        if decide (litYear <+: skipWs rest) then some ((digitsToNat ds : ℚ)) else none
    else none

/-- Leftmost match of the fractional year pattern, models re.search. -/
def searchYearQ : List Char → Option ℚ
  | [] => none
  | c :: rest =>
    match matchYearAt (c :: rest) with
    | some q => some q
    | none => searchYearQ rest

namespace Phase3

/-!
Embedding of Phase3AIService in src/api/services_phase3.py.
-/

/-- Phase3AIService._parse_duration_months. A falsy (empty) duration
returns 0 before any pattern is tried; a year match returns the truncation
of twelve times the (possibly fractional) year count; a month match
returns the month count; otherwise the default 12. The float product is
modelled exactly over the rationals. -/
def parse_duration_months (duration : String) : ℤ :=
  if duration = "" then 0
  else
    match searchYearQ (lowerStr duration).data with
    | some q => (q * 12).floor
    | none =>
      match searchNumLit litMonth (lowerStr duration).data with
      | some m => (m : ℤ)
      | none => 12

/-- Phase3AIService._calculate_salary_fit. The expected salary is an
Option: none models Python None when no figure was extracted; the code
guard treats None and 0 alike (both falsy). -/
def calculate_salary_fit (expected : Option ℕ) (min_sal max_sal : ℕ) : ℚ :=
  match expected with
  | none => 100
  | some e =>
    if e = 0 then 100
    else if min_sal ≤ e ∧ e ≤ max_sal then 100
    else if e < min_sal then (e : ℚ) / min_sal * 100
    else (max_sal : ℚ) / e * 100

end Phase3

namespace Analytics

/-!
Embedding of AdvancedAnalyticsService in src/api/analytics.py.
-/

/-- AdvancedAnalyticsService._extract_years_from_duration: first integer
year count in the duration, defaulting to 1. -/
def extract_years_from_duration (duration : String) : ℕ :=
  match searchNumLit litYear (lowerStr duration).data with
  | some n => n
  | none => 1

/-- AdvancedAnalyticsService._calculate_total_experience: every entry
contributes its extracted years times 12 months; the grand total is
divided by 12. -/
def calculate_total_experience (durations : List String) : ℕ :=
  ((durations.map fun d => extract_years_from_duration d * 12).sum) / 12

/-- Result record of the analytics skills gap computation. -/
structure GapResultA where
  missing_skills : Finset String
  existing_skills : Finset String
  gap_percentage : ℚ
deriving DecidableEq

/-- AdvancedAnalyticsService.calculate_skills_gap_analysis, with the
current skills list and the trending skills list as inputs. The gap
percentage divides by the length of the trending list, not of its set,
and is not rounded. -/
def calculate_skills_gap_analysis (current trending : List String) : GapResultA :=
  { missing_skills := trending.toFinset \ current.toFinset
    existing_skills := current.toFinset ∩ trending.toFinset
    gap_percentage :=
      if trending = [] then 0
      else ((trending.toFinset \ current.toFinset).card : ℚ) / trending.length * 100 }

/-- The Junior indicator keywords. -/
def juniorKws : List String := ["junior", "entry", "associate", "0-2"]

/-- The Mid indicator keywords. -/
def midKws : List String := ["mid", "intermediate", "3-5"]

/-- The Senior indicator keywords. -/
def seniorKws : List String := ["senior", "lead", "sr", "6+"]

/-- The Lead indicator keywords. -/
def leadKws : List String := ["lead", "principal", "architect"]

/-- The Manager indicator keywords. -/
def managerKws : List String := ["manager", "director", "vp"]

/-- AdvancedAnalyticsService._determine_job_level: the lowercased title is
tested for the keyword groups in order, the first match wins, default
Mid-level. -/
def determine_job_level (position : String) : String :=
  let p := lowerStr position
  if juniorKws.any (fun k => containsSub k p) then "Junior"
  else if midKws.any (fun k => containsSub k p) then "Mid-level"
  else if seniorKws.any (fun k => containsSub k p) then "Senior"
  else if leadKws.any (fun k => containsSub k p) then "Lead"
  else if managerKws.any (fun k => containsSub k p) then "Manager"
  else "Mid-level"

/-- The ordered keyword groups of the documented priority order, written
the way the specification describes them, to compare with the code. -/
def levelGroups : List (List String × String) :=
  [(juniorKws, "Junior"), (midKws, "Mid-level"), (seniorKws, "Senior"),
   (leadKws, "Lead"), (managerKws, "Manager")]

/-- Modelled from the spec: first matching group wins over the ordered
group list, default Mid-level. Used as the specification side of the
refinement in claim C9. -/
def firstMatchLevel : List (List String × String) → String → String
  | [], _ => "Mid-level"
  | (kws, lvl) :: rest, p =>
    if kws.any (fun k => containsSub k (lowerStr p)) then lvl
    else firstMatchLevel rest p

end Analytics

namespace Enhanced

/-!
Embedding of EnhancedAnalyticsService in src/api/services_enhanced.py.
-/

/-- Per-skill market record of the trending table. -/
structure SkillData where
  demand : ℕ
  salary_impact : ℕ
deriving DecidableEq

/-- Result record of the enhanced skills gap computation. -/
structure GapResultE where
  missing_skills : Finset String
  existing_skills : Finset String
  gap_percentage : ℚ
deriving DecidableEq

/-- EnhancedAnalyticsService.calculate_skills_gap_analysis, with the
candidate skill key set and the trending skill key set as inputs. The gap
percentage is rounded to two decimals. -/
def calculate_skills_gap_analysis (current trending : Finset String) : GapResultE :=
  { missing_skills := trending \ current
    existing_skills := current ∩ trending
    gap_percentage :=
      round2 (if 0 < trending.card
              then ((trending \ current).card : ℚ) / trending.card * 100
              else 0) }

/-- Entry of the priority skill list. -/
structure PrioritySkill where
  skill : String
  priority : String
  market_impact : ℕ
deriving DecidableEq

/-- The loop body of _get_priority_skills: every missing skill found in
the trending table yields an entry, priority high when demand exceeds
6000 and medium otherwise, in the order of the missing list. -/
def priorityEntries (missing : List String)
    (trending : String → Option SkillData) : List PrioritySkill :=
  missing.filterMap fun s =>
    match trending s with
    | some d => some ⟨s, if 6000 < d.demand then "high" else "medium", d.salary_impact⟩
    | none => none

/-- EnhancedAnalyticsService._get_priority_skills: the entries of the loop
sorted by market impact descending. The Python sorted call is a stable
sort on that single key; insertionSort with the reflexive descending
relation computes the same stable ordering. -/
def get_priority_skills (missing : List String)
    (trending : String → Option SkillData) : List PrioritySkill :=
  List.insertionSort (fun a b => b.market_impact ≤ a.market_impact)
    (priorityEntries missing trending)

end Enhanced

/-- Demand recorded for a skill in a trending table, 0 when absent. -/
def demandOf (t : String → Option Enhanced.SkillData) (s : String) : ℕ :=
  match t s with
  | some d => d.demand
  | none => 0

/-- Modelled from the spec: the priority ordering the specification
claims, descending salary impact, ties by descending demand, then
alphabetically by skill name. Used to compare the claimed ordering with
the one the code computes. -/
def claimPriorityOrder (t : String → Option Enhanced.SkillData)
    (a b : Enhanced.PrioritySkill) : Prop :=
  b.market_impact < a.market_impact ∨
    (a.market_impact = b.market_impact ∧
      (demandOf t b.skill < demandOf t a.skill ∨
        (demandOf t a.skill = demandOf t b.skill ∧ a.skill ≤ b.skill)))

instance (t : String → Option Enhanced.SkillData) :
    DecidableRel (claimPriorityOrder t) := by
  intro a b
  unfold claimPriorityOrder
  infer_instance

/-- A two-skill trending table where both skills share one salary impact
and B has the larger demand. -/
def trendAB : String → Option Enhanced.SkillData :=
  fun s => if s = "A" then some ⟨1, 5⟩ else if s = "B" then some ⟨2, 5⟩ else none

/-- A one-skill trending table with demand above the 6000 threshold. -/
def trendX : String → Option Enhanced.SkillData :=
  fun s => if s = "X" then some ⟨7000, 9⟩ else none

theorem roundHE_nonneg {q : ℚ} (h : 0 ≤ q) : 0 ≤ roundHE q := by
  unfold roundHE
  have h0 : (0 : ℤ) ≤ ⌊q⌋ := Int.floor_nonneg.2 h
  split_ifs <;> omega

theorem roundHE_le {q : ℚ} {N : ℤ} (h : q ≤ N) : roundHE q ≤ N := by
  unfold roundHE
  have hfl : ⌊q⌋ ≤ N := by
    have := Int.floor_le_floor h
    simpa using this
  have hq : (⌊q⌋ : ℚ) ≤ q := Int.floor_le q
  split_ifs with h1 h2 h3
  · exact hfl
  · -- here the fractional part exceeds one half, so the floor is below N
    have hlt : (⌊q⌋ : ℚ) + 1 / 2 < (N : ℚ) := by
      have : (⌊q⌋ : ℚ) + 1 / 2 < q := by linarith
      linarith [h]
    have : (⌊q⌋ : ℚ) < (N : ℚ) := by linarith
    have : ⌊q⌋ < N := by exact_mod_cast this
    omega
  · exact hfl
  · have heq : q - ⌊q⌋ = 1 / 2 := le_antisymm (not_lt.1 h2) (not_lt.1 h1)
    have : (⌊q⌋ : ℚ) + 1 / 2 ≤ (N : ℚ) := by
      have : q = (⌊q⌋ : ℚ) + 1 / 2 := by linarith
      linarith [h]
    have : (⌊q⌋ : ℚ) < (N : ℚ) := by linarith
    have : ⌊q⌋ < N := by exact_mod_cast this
    omega

theorem roundHE_zero : roundHE 0 = 0 := by
  unfold roundHE
  norm_num

theorem round2_zero : round2 0 = 0 := by
  unfold round2
  rw [zero_mul, roundHE_zero]
  norm_num

theorem round2_nonneg {q : ℚ} (h : 0 ≤ q) : 0 ≤ round2 q := by
  unfold round2
  have : (0 : ℤ) ≤ roundHE (q * 100) := roundHE_nonneg (by positivity)
  positivity

theorem round2_le_hundred {q : ℚ} (h : q ≤ 100) : round2 q ≤ 100 := by
  unfold round2
  have h1 : q * 100 ≤ ((10000 : ℤ) : ℚ) := by push_cast; linarith
  have h2 : roundHE (q * 100) ≤ 10000 := roundHE_le h1
  have h3 : ((roundHE (q * 100)) : ℚ) ≤ 10000 := by exact_mod_cast h2
  linarith

/-- C1: for every candidate skill set A and required skill set B, the
matched and missing skill sets returned by calculate_match_score
partition B: their union is B and their intersection is empty. -/
theorem C1_matched_missing_partition (A B : Finset String)
    (ds : List String) (req : String) :
    (Services.calculate_match_score A B ds req).matched_skills ∪
        (Services.calculate_match_score A B ds req).missing_skills = B ∧
    (Services.calculate_match_score A B ds req).matched_skills ∩
        (Services.calculate_match_score A B ds req).missing_skills = ∅ := by
  simp only [Services.calculate_match_score]
  constructor
  · ext x
    simp only [Finset.mem_union, Finset.mem_inter, Finset.mem_sdiff]
    tauto
  · ext x
    simp only [Finset.mem_inter, Finset.mem_sdiff, Finset.not_mem_empty, iff_false]
    tauto

/-- C2: the match score equals 100 times the matched count over the
required count, rounded to two decimals, when the required set is
non-empty; on an empty required set the score is 0 and the matched and
missing sets are both empty. -/
theorem C2_match_score_formula (A B : Finset String)
    (ds : List String) (req : String) :
    (Services.calculate_match_score A B ds req).match_score =
      (if B = ∅ then 0
       else round2 (100 * ((A ∩ B).card : ℚ) / B.card)) ∧
    (Services.calculate_match_score A ∅ ds req).match_score = 0 ∧
    (Services.calculate_match_score A ∅ ds req).matched_skills = ∅ ∧
    (Services.calculate_match_score A ∅ ds req).missing_skills = ∅ := by
  have key : ∀ C : Finset String,
      (Services.calculate_match_score A C ds req).match_score =
        (if C = ∅ then 0 else round2 (100 * ((A ∩ C).card : ℚ) / C.card)) := by
    intro C
    simp only [Services.calculate_match_score]
    by_cases hC : C = ∅
    · subst hC
      simp [Finset.not_nonempty_empty, round2_zero]
    · have hne : C.Nonempty := Finset.nonempty_iff_ne_empty.2 hC
      simp only [hne, if_true, hC, if_false]
      congr 1
      ring
  refine ⟨key B, ?_, ?_, ?_⟩
  · rw [key ∅]
    simp
  · simp [Services.calculate_match_score]
  · simp [Services.calculate_match_score]

/-- C9: job-level classification scans the lowercased title against the
keyword groups in the fixed order Junior, Mid, Senior, Lead, Manager,
first matching group wins (the code equals the first-match formulation
over the ordered group list), defaults to Mid-level when no group
matches, and the title Senior Lead Engineer classifies as Senior. -/
theorem C9_job_level_priority_order :
    (∀ s, Analytics.determine_job_level s =
      Analytics.firstMatchLevel Analytics.levelGroups s) ∧
    Analytics.determine_job_level "Senior Lead Engineer" = "Senior" ∧
    (∀ s, (∀ g ∈ Analytics.levelGroups, ∀ k ∈ g.1,
        containsSub k (lowerStr s) = false) →
      Analytics.determine_job_level s = "Mid-level") := by
  refine ⟨?_, by decide, ?_⟩
  · intro s
    rfl
  · intro s h
    have hj : ∀ k ∈ Analytics.juniorKws, containsSub k (lowerStr s) = false :=
      h (Analytics.juniorKws, "Junior") (by simp [Analytics.levelGroups])
    have hm : ∀ k ∈ Analytics.midKws, containsSub k (lowerStr s) = false :=
      h (Analytics.midKws, "Mid-level") (by simp [Analytics.levelGroups])
    have hs : ∀ k ∈ Analytics.seniorKws, containsSub k (lowerStr s) = false :=
      h (Analytics.seniorKws, "Senior") (by simp [Analytics.levelGroups])
    have hl : ∀ k ∈ Analytics.leadKws, containsSub k (lowerStr s) = false :=
      h (Analytics.leadKws, "Lead") (by simp [Analytics.levelGroups])
    have hmg : ∀ k ∈ Analytics.managerKws, containsSub k (lowerStr s) = false :=
      h (Analytics.managerKws, "Manager") (by simp [Analytics.levelGroups])
    simp only [Analytics.determine_job_level]
    rw [List.any_eq_false.2 (by intro k hk; simp [hj k hk]),
      List.any_eq_false.2 (by intro k hk; simp [hm k hk]),
      List.any_eq_false.2 (by intro k hk; simp [hs k hk]),
      List.any_eq_false.2 (by intro k hk; simp [hl k hk]),
      List.any_eq_false.2 (by intro k hk; simp [hmg k hk])]
    rfl

/-- C10: a title containing lead with no Junior-group or Mid-group keyword
classifies as Senior, because lead also sits in the Senior group which is
tested first; consequently the Lead level is reachable only through a
title containing principal or architect. -/
theorem C10_lead_level_shadowed :
    (∀ s, containsSub "lead" (lowerStr s) = true →
      (∀ k ∈ Analytics.juniorKws, containsSub k (lowerStr s) = false) →
      (∀ k ∈ Analytics.midKws, containsSub k (lowerStr s) = false) →
      Analytics.determine_job_level s = "Senior") ∧
    (∀ s, Analytics.determine_job_level s = "Lead" →
      containsSub "principal" (lowerStr s) = true ∨
        containsSub "architect" (lowerStr s) = true) := by
  constructor
  · intro s hlead hj hm
    simp only [Analytics.determine_job_level]
    rw [List.any_eq_false.2 (by intro k hk; simp [hj k hk]),
      List.any_eq_false.2 (by intro k hk; simp [hm k hk])]
    have hs : Analytics.seniorKws.any (fun k => containsSub k (lowerStr s)) = true := by
      simp only [List.any_eq_true]
      exact ⟨"lead", by simp [Analytics.seniorKws], hlead⟩
    rw [hs]
    rfl
  · intro s h
    simp only [Analytics.determine_job_level] at h
    split_ifs at h with h1 h2 h3 h4 h5
    · exact absurd h (by decide)
    · exact absurd h (by decide)
    · exact absurd h (by decide)
    · simp only [List.any_eq_true] at h3 h4
      obtain ⟨k, hk, hks⟩ := h4
      have : k = "lead" ∨ k = "principal" ∨ k = "architect" := by
        simpa [Analytics.leadKws] using hk
      rcases this with hk' | hk' | hk'
      · subst hk'
        exact absurd ⟨"lead", by simp [Analytics.seniorKws], hks⟩ h3
      · subst hk'
        exact Or.inl hks
      · subst hk'
        exact Or.inr hks
    · exact absurd h (by decide)
    · exact absurd h (by decide)

theorem matchYearFrac_nonneg {ip : ℕ} {rest : List Char} {q : ℚ}
    (h : matchYearFrac ip rest = some q) : 0 ≤ q := by
  unfold matchYearFrac at h
  repeat' split at h
  all_goals first
    | (rw [Option.some_inj] at h
       rw [← h]
       positivity)
    | (rw [← h.2]
       positivity)
    | (simp only [Option.ite_none_right_eq_some, Option.some_inj] at h
       rw [← h.2]
       positivity)
    | simp at h

theorem matchYearAt_nonneg {l : List Char} {q : ℚ} (h : matchYearAt l = some q) :
    0 ≤ q := by
  cases l with
  | nil => simp [matchYearAt] at h
  | cons c cs =>
    simp only [matchYearAt] at h
    by_cases hd : c.isDigit = true
    · rw [if_pos hd] at h
      rcases hfr : matchYearFrac (digitsToNat (List.takeWhile Char.isDigit (c :: cs)))
          (List.dropWhile Char.isDigit (c :: cs)) with _ | q1
      · rw [hfr] at h
        simp only [Option.ite_none_right_eq_some, Option.some_inj] at h
        rw [← h.2]
        positivity
      · rw [hfr] at h
        simp only [Option.some_inj] at h
        rw [← h]
        exact matchYearFrac_nonneg hfr
    · rw [if_neg hd] at h
      exact absurd h (by simp)

theorem searchYearQ_nonneg {l : List Char} {q : ℚ} (h : searchYearQ l = some q) :
    0 ≤ q := by
  induction l with
  | nil => simp [searchYearQ] at h
  | cons c cs ih =>
    simp only [searchYearQ] at h
    split at h
    · rename_i q1 hq1
      rw [Option.some_inj] at h
      rw [← h]
      exact matchYearAt_nonneg hq1
    · exact ih h

theorem ratFloor_eq_floor (q : ℚ) : q.floor = ⌊q⌋ := by
  rw [Rat.floor_def', Rat.floor_def]

/-- Counterexample for C3: on the empty string the duration parser
returns 0, not the default 12 the claim states: the falsy guard fires
before any pattern or default is tried. -/
theorem C3_counterexample_empty_duration :
    Phase3.parse_duration_months "" = 0 ∧ Phase3.parse_duration_months "" ≠ 12 := by
  decide

/-- C3 (amended): duration parsing is total and non-negative; 3 years
yields 36 and Present yields the default 12, a year match yields the
floor of twelve times the year count, a month match yields the month
count, and a non-empty string with neither pattern yields the default 12;
however the empty (falsy) string yields 0, not the default 12. -/
theorem C3_parse_duration_total :
    (∀ s, 0 ≤ Phase3.parse_duration_months s) ∧
    Phase3.parse_duration_months "3 years" = 36 ∧
    Phase3.parse_duration_months "Present" = 12 ∧
    Phase3.parse_duration_months "" = 0 ∧
    (∀ s q, s ≠ "" → searchYearQ (lowerStr s).data = some q →
      Phase3.parse_duration_months s = ⌊q * 12⌋) ∧
    (∀ s m, s ≠ "" → searchYearQ (lowerStr s).data = none →
      searchNumLit litMonth (lowerStr s).data = some m →
      Phase3.parse_duration_months s = m) ∧
    (∀ s, s ≠ "" → searchYearQ (lowerStr s).data = none →
      searchNumLit litMonth (lowerStr s).data = none →
      Phase3.parse_duration_months s = 12) := by
  have hyear : ∀ s q, s ≠ "" → searchYearQ (lowerStr s).data = some q →
      Phase3.parse_duration_months s = ⌊q * 12⌋ := by
    intro s q hs hq
    unfold Phase3.parse_duration_months
    rw [if_neg hs, hq]
    exact ratFloor_eq_floor (q * 12)
  have hmonth : ∀ s m, s ≠ "" → searchYearQ (lowerStr s).data = none →
      searchNumLit litMonth (lowerStr s).data = some m →
      Phase3.parse_duration_months s = m := by
    intro s m hs hy hm
    unfold Phase3.parse_duration_months
    rw [if_neg hs, hy, hm]
  have hdef : ∀ s, s ≠ "" → searchYearQ (lowerStr s).data = none →
      searchNumLit litMonth (lowerStr s).data = none →
      Phase3.parse_duration_months s = 12 := by
    intro s hs hy hm
    unfold Phase3.parse_duration_months
    rw [if_neg hs, hy, hm]
  refine ⟨?_, ?_, by decide, by decide, hyear, hmonth, hdef⟩
  · intro s
    unfold Phase3.parse_duration_months
    split_ifs with he
    · exact le_refl 0
    · split
      · rename_i q hq
        have hq0 : 0 ≤ q := searchYearQ_nonneg hq
        have h12 : (0 : ℚ) ≤ q * 12 := by positivity
        rw [ratFloor_eq_floor]
        exact Int.floor_nonneg.2 h12
      · split
        · positivity
        · norm_num
  · rw [hyear "3 years" 3 (by decide) (by decide)]
    norm_num

/-- Witness for C3: the amended theorem applied at the concrete durations
4 years, 7 months and Unknown. -/
theorem C3_parse_duration_total_witness :
    Phase3.parse_duration_months "4 years" = 48 ∧
    Phase3.parse_duration_months "7 months" = 7 ∧
    Phase3.parse_duration_months "Unknown" = 12 :=
  ⟨by
    rw [C3_parse_duration_total.2.2.2.2.1 "4 years" 4 (by decide) (by decide)]
    norm_num,
   C3_parse_duration_total.2.2.2.2.2.1 "7 months" 7 (by decide) (by decide) (by decide),
   C3_parse_duration_total.2.2.2.2.2.2 "Unknown" (by decide) (by decide) (by decide)⟩

theorem totalMonthsS_all_some {ds : List String}
    (h : ∀ d ∈ ds, Services.entryMonthsS d ≠ none) :
    Services.totalMonthsS ds =
      some ((ds.map (fun d => (Services.entryMonthsS d).getD 0)).sum) := by
  induction ds with
  | nil => rfl
  | cons d rest ih =>
    have hd : Services.entryMonthsS d ≠ none := h d (by simp)
    rcases hm : Services.entryMonthsS d with _ | m
    · exact absurd hm hd
    · have hrest : ∀ e ∈ rest, Services.entryMonthsS e ≠ none := by
        intro e he
        exact h e (by simp [he])
      rw [Services.totalMonthsS, hm, ih hrest]
      simp [hm]

theorem totalMonthsS_append_none {d : String}
    (h : Services.entryMonthsS d = none) (ds es : List String) :
    Services.totalMonthsS (ds ++ d :: es) = none := by
  induction ds with
  | nil =>
    rw [List.nil_append, Services.totalMonthsS, h]
  | cons a tl ih =>
    rw [List.cons_append, Services.totalMonthsS, ih]
    rcases Services.entryMonthsS a with _ | m <;> rfl

theorem analytics_total_eq_sum_years (ds : List String) :
    Analytics.calculate_total_experience ds =
      (ds.map Analytics.extract_years_from_duration).sum := by
  unfold Analytics.calculate_total_experience
  have hmul : (ds.map (fun d => Analytics.extract_years_from_duration d * 12)).sum =
      (ds.map Analytics.extract_years_from_duration).sum * 12 := by
    induction ds with
    | nil => simp
    | cons a tl ih => simp [ih]; ring
  rw [hmul, Nat.mul_div_cancel]
  norm_num

/-- Counterexample for C4: the services aggregation is one try/except
around the whole loop, so the single unparseable duration many years
collapses the total from 2 to 0. -/
theorem C4_counterexample_collapse :
    Services.calculate_total_experience ["2 years", "many years"] = 0 ∧
    Services.calculate_total_experience ["2 years"] = 2 := by
  decide

/-- C4 (amended): the analytics aggregation processes each entry
independently, never raises, and totals the per-entry months divided by
12 (equivalently the sum of extracted years), additively across entry
lists; the services aggregation equals the sum of per-entry months
divided by 12 only when no year-marked entry lacks a digit, and one
raising entry anywhere zeroes the entire total. -/
theorem C4_total_experience_aggregation :
    (∀ ds, Analytics.calculate_total_experience ds =
      (ds.map Analytics.extract_years_from_duration).sum) ∧
    (∀ ds es, Analytics.calculate_total_experience (ds ++ es) =
      Analytics.calculate_total_experience ds +
        Analytics.calculate_total_experience es) ∧
    (∀ ds, (∀ d ∈ ds, Services.entryMonthsS d ≠ none) →
      Services.calculate_total_experience ds =
        ((ds.map (fun d => (Services.entryMonthsS d).getD 0)).sum) / 12) ∧
    (∀ ds d es, Services.entryMonthsS d = none →
      Services.calculate_total_experience (ds ++ d :: es) = 0) := by
  refine ⟨analytics_total_eq_sum_years, ?_, ?_, ?_⟩
  · intro ds es
    rw [analytics_total_eq_sum_years, analytics_total_eq_sum_years,
      analytics_total_eq_sum_years, List.map_append, List.sum_append]
  · intro ds h
    unfold Services.calculate_total_experience
    rw [totalMonthsS_all_some h]
  · intro ds d es h
    unfold Services.calculate_total_experience
    rw [totalMonthsS_append_none h]

/-- Witness for C4: the aggregation theorems applied at concrete entry
lists, one where every services entry parses and one with the raising
entry many years. -/
theorem C4_total_experience_aggregation_witness :
    Analytics.calculate_total_experience ["2 years", "Present"] = 3 ∧
    Services.calculate_total_experience ["2 years", "3 years"] = 5 ∧
    Services.calculate_total_experience (["1 year"] ++ "many years" :: []) = 0 :=
  ⟨by rw [C4_total_experience_aggregation.1 ["2 years", "Present"]]; decide,
   by rw [C4_total_experience_aggregation.2.2.1 ["2 years", "3 years"] (by decide)]; decide,
   C4_total_experience_aggregation.2.2.2 ["1 year"] "many years" [] (by decide)⟩

/-- Counterexample for C5: the requirement string senior level contains no
digit, yet the check reports it unsatisfied (the int call on the empty
digit string raises and the except arm returns False), where the claim
asserts it is satisfied unconditionally. -/
theorem C5_counterexample_no_digit_requirement :
    Services.check_experience_match 10 "senior level" = false ∧
    Services.check_experience_match 10 "senior level" ≠ true := by
  decide

/-- C5 (amended): the experience check is satisfied unconditionally only
when the requirement string is empty; a non-empty requirement with no
digit is reported unsatisfied; otherwise the check holds exactly when the
resume experience is at least the number formed by concatenating every
digit of the requirement string. -/
theorem C5_experience_match_cases :
    (∀ r, Services.check_experience_match r "" = true) ∧
    (∀ r s, s ≠ "" → s.data.filter Char.isDigit = [] →
      Services.check_experience_match r s = false) ∧
    (∀ r s, s.data.filter Char.isDigit ≠ [] →
      (Services.check_experience_match r s = true ↔
        digitsToNat (s.data.filter Char.isDigit) ≤ r)) := by
  refine ⟨?_, ?_, ?_⟩
  · intro r
    rfl
  · intro r s hs hds
    unfold Services.check_experience_match
    rw [if_neg hs]
    simp [hds]
  · intro r s hds
    have hs : s ≠ "" := by
      intro he
      subst he
      exact hds rfl
    unfold Services.check_experience_match
    rw [if_neg hs]
    simp [hds]

/-- Witness for C5: the amended cases applied at a resume experience of 7
against the empty requirement, a digit-free requirement and 5+ years. -/
theorem C5_experience_match_cases_witness :
    Services.check_experience_match 7 "" = true ∧
    Services.check_experience_match 7 "no digits here" = false ∧
    Services.check_experience_match 7 "5+ years" = true :=
  ⟨C5_experience_match_cases.1 7,
   C5_experience_match_cases.2.1 7 "no digits here" (by decide) (by decide),
   (C5_experience_match_cases.2.2 7 "5+ years" (by decide)).mpr (by decide)⟩

/-- Witness for C9: the classifier is evaluated at the concrete titles
Senior Lead Engineer and Developer, the latter matching no group. -/
theorem C9_job_level_priority_order_witness :
    Analytics.determine_job_level "Senior Lead Engineer" = "Senior" ∧
    Analytics.determine_job_level "Developer" = "Mid-level" :=
  ⟨C9_job_level_priority_order.2.1,
   C9_job_level_priority_order.2.2 "Developer" (by decide)⟩

/-- Witness for C10: Team Lead classifies as Senior and Principal Engineer
is a title reaching the Lead level through principal. -/
theorem C10_lead_level_shadowed_witness :
    Analytics.determine_job_level "Team Lead" = "Senior" ∧
    (containsSub "principal" (lowerStr "Principal Engineer") = true ∨
      containsSub "architect" (lowerStr "Principal Engineer") = true) :=
  ⟨C10_lead_level_shadowed.1 "Team Lead" (by decide) (by decide) (by decide),
   C10_lead_level_shadowed.2 "Principal Engineer" (by decide)⟩

theorem round2_hundred_thirds : round2 (1 / 3 * 100) = 3333 / 100 := by
  unfold round2 roundHE
  have h1 : ((1 : ℚ) / 3 * 100 * 100) = 10000 / 3 := by norm_num
  rw [h1]
  have h2 : ⌊(10000 / 3 : ℚ)⌋ = 3333 := by norm_num
  rw [h2]
  norm_num

/-- Counterexample for C6: with candidate skills A, B and trending skills
A, B, C the enhanced gap analysis returns the two-decimal rounding 33.33,
not the exact value 100 times 1 over 3 the claim states. -/
theorem C6_counterexample_rounded_gap :
    (Enhanced.calculate_skills_gap_analysis {"A", "B"} {"A", "B", "C"}).missing_skills.card = 1 ∧
    ({"A", "B", "C"} : Finset String).card = 3 ∧
    (Enhanced.calculate_skills_gap_analysis {"A", "B"} {"A", "B", "C"}).gap_percentage = 3333 / 100 ∧
    (3333 / 100 : ℚ) ≠ 100 * 1 / 3 := by
  refine ⟨by decide, by decide, ?_, by norm_num⟩
  unfold Enhanced.calculate_skills_gap_analysis
  have h1 : ((({"A", "B", "C"} : Finset String) \ {"A", "B"}).card : ℚ) = 1 := by
    rw [show (({"A", "B", "C"} : Finset String) \ {"A", "B"}).card = 1 from by decide]
    norm_num
  have h2 : ((({"A", "B", "C"} : Finset String)).card : ℚ) = 3 := by
    rw [show ({"A", "B", "C"} : Finset String).card = 3 from by decide]
    norm_num
  rw [if_pos (by decide), h1, h2]
  rw [show ((1 : ℚ) / 3 * 100) = 1 / 3 * 100 from rfl]
  exact round2_hundred_thirds

/-- C6 (amended): the enhanced gap analysis returns missing equal to the
trending keys minus the candidate keys, existing equal to the
intersection, and a gap percentage equal to the two-decimal rounding of
100 times the missing count over the trending count (0 on an empty
trending table), a value always within 0 and 100 and equal to 0 whenever
the candidate covers every trending key; the analytics variant returns
the same formula unrounded when its trending list has no duplicates. -/
theorem C6_skills_gap_analysis :
    (∀ cand trend : Finset String,
      (Enhanced.calculate_skills_gap_analysis cand trend).missing_skills = trend \ cand ∧
      (Enhanced.calculate_skills_gap_analysis cand trend).existing_skills = cand ∩ trend ∧
      (Enhanced.calculate_skills_gap_analysis cand trend).gap_percentage =
        (if trend = ∅ then 0
         else round2 (100 * ((trend \ cand).card : ℚ) / trend.card)) ∧
      0 ≤ (Enhanced.calculate_skills_gap_analysis cand trend).gap_percentage ∧
      (Enhanced.calculate_skills_gap_analysis cand trend).gap_percentage ≤ 100 ∧
      (trend ⊆ cand →
        (Enhanced.calculate_skills_gap_analysis cand trend).gap_percentage = 0)) ∧
    (∀ cur trend : List String, trend.Nodup →
      (Analytics.calculate_skills_gap_analysis cur trend).gap_percentage =
        (if trend = [] then 0
         else 100 * ((trend.toFinset \ cur.toFinset).card : ℚ) / trend.toFinset.card)) := by
  constructor
  · intro cand trend
    have hmle : (trend \ cand).card ≤ trend.card :=
      Finset.card_le_card (Finset.sdiff_subset)
    have hinner : (0 : ℚ) ≤
        (if 0 < trend.card then ((trend \ cand).card : ℚ) / trend.card * 100 else 0) := by
      split_ifs with hc
      · positivity
      · exact le_refl 0
    have hinner100 :
        (if 0 < trend.card then ((trend \ cand).card : ℚ) / trend.card * 100 else 0) ≤ 100 := by
      split_ifs with hc
      · have hcq : (0 : ℚ) < trend.card := by exact_mod_cast hc
        have : ((trend \ cand).card : ℚ) / trend.card ≤ 1 := by
          rw [div_le_one hcq]
          exact_mod_cast hmle
        linarith
      · norm_num
    refine ⟨rfl, rfl, ?_, round2_nonneg hinner, round2_le_hundred hinner100, ?_⟩
    · unfold Enhanced.calculate_skills_gap_analysis
      by_cases ht : trend = ∅
      · subst ht
        simp [round2_zero]
      · have hc : 0 < trend.card :=
          Finset.card_pos.2 (Finset.nonempty_iff_ne_empty.2 ht)
        rw [if_neg ht]
        simp only [if_pos hc]
        congr 1
        ring
    · intro hsub
      unfold Enhanced.calculate_skills_gap_analysis
      have hsd : trend \ cand = ∅ := Finset.sdiff_eq_empty_iff_subset.2 hsub
      rw [hsd]
      simp [round2_zero]
  · intro cur trend hnd
    unfold Analytics.calculate_skills_gap_analysis
    by_cases ht : trend = []
    · simp [ht]
    · rw [if_neg ht, if_neg ht]
      rw [List.toFinset_card_of_nodup hnd]
      ring

/-- Witness for C6: the gap is 0 when the candidate covers the trending
keys and the analytics variant returns the exact unrounded ratio on a
duplicate-free trending list. -/
theorem C6_skills_gap_analysis_witness :
    (Enhanced.calculate_skills_gap_analysis {"A", "B"} {"A"}).gap_percentage = 0 ∧
    (Analytics.calculate_skills_gap_analysis ["A"] ["A", "B"]).gap_percentage = 50 := by
  constructor
  · exact (C6_skills_gap_analysis.1 {"A", "B"} {"A"}).2.2.2.2.2 (by decide)
  · rw [C6_skills_gap_analysis.2 ["A"] ["A", "B"] (by decide), if_neg (by decide)]
    have h1 : (((["A", "B"] : List String).toFinset \ (["A"] : List String).toFinset).card : ℚ) = 1 := by
      rw [show ((["A", "B"] : List String).toFinset \ (["A"] : List String).toFinset).card = 1 from by decide]
      norm_num
    have h2 : (((["A", "B"] : List String).toFinset).card : ℚ) = 2 := by
      rw [show ((["A", "B"] : List String).toFinset).card = 2 from by decide]
      norm_num
    rw [h1, h2]
    norm_num

/-- Counterexample for C7: skills A and B share salary impact 5 while B
has the larger demand, so the claimed ordering requires B before A; the
code sorts only by market impact with a stable sort, so A stays first and
the returned list violates the claimed ordering. -/
theorem C7_counterexample_tie_order :
    Enhanced.get_priority_skills ["A", "B"] trendAB =
      [⟨"A", "medium", 5⟩, ⟨"B", "medium", 5⟩] ∧
    ¬ List.Pairwise (claimPriorityOrder trendAB)
        (Enhanced.get_priority_skills ["A", "B"] trendAB) := by
  constructor
  · decide
  · decide

theorem orderedInsert_filter_impact (a : Enhanced.PrioritySkill)
    (l : List Enhanced.PrioritySkill) (k : ℕ) :
    (List.orderedInsert (fun x y => y.market_impact ≤ x.market_impact) a l).filter
        (fun p => p.market_impact = k) =
      (if a.market_impact = k
       then a :: l.filter (fun p => p.market_impact = k)
       else l.filter (fun p => p.market_impact = k)) := by
  induction l with
  | nil =>
    by_cases hk : a.market_impact = k <;>
      simp [List.orderedInsert, List.filter_cons, hk]
  | cons b t ih =>
    rw [List.orderedInsert]
    by_cases hr : b.market_impact ≤ a.market_impact
    · rw [if_pos hr]
      by_cases hk : a.market_impact = k <;> simp [List.filter_cons, hk]
    · rw [if_neg hr]
      have hab : a.market_impact < b.market_impact := not_le.1 hr
      by_cases hk : a.market_impact = k
      · have hbk : ¬ b.market_impact = k := by omega
        simp [List.filter_cons, hk, hbk, ih]
      · simp [List.filter_cons, hk, ih]

theorem insertionSort_filter_impact (l : List Enhanced.PrioritySkill) (k : ℕ) :
    (List.insertionSort (fun x y => y.market_impact ≤ x.market_impact) l).filter
        (fun p => p.market_impact = k) =
      l.filter (fun p => p.market_impact = k) := by
  induction l with
  | nil => rfl
  | cons a t ih =>
    rw [List.insertionSort, orderedInsert_filter_impact]
    by_cases hk : a.market_impact = k
    · rw [if_pos hk, ih]
      simp [List.filter_cons, hk]
    · rw [if_neg hk, ih]
      simp [List.filter_cons, hk]

/-- C7 (amended): the priority list is sorted descending by market impact
only, ties keeping the encounter order of the missing list (stable sort:
for every impact value, filtering the sorted list yields exactly the loop
entries with that impact in their original order), and every entry comes
from a trending skill, carries that skill's salary impact as market
impact, and priority high exactly when its demand exceeds 6000, medium
otherwise. -/
theorem C7_priority_skills_sorted :
    ∀ missing trending,
      (Enhanced.get_priority_skills missing trending).Pairwise
        (fun a b => b.market_impact ≤ a.market_impact) ∧
      (∀ k : ℕ, (Enhanced.get_priority_skills missing trending).filter
          (fun p => p.market_impact = k) =
        (Enhanced.priorityEntries missing trending).filter
          (fun p => p.market_impact = k)) ∧
      (∀ p ∈ Enhanced.get_priority_skills missing trending,
        ∃ d, trending p.skill = some d ∧
          p.market_impact = d.salary_impact ∧
          p.priority = (if 6000 < d.demand then "high" else "medium")) := by
  intro missing trending
  refine ⟨?_, ?_, ?_⟩
  · haveI ht : IsTrans Enhanced.PrioritySkill
        (fun a b => b.market_impact ≤ a.market_impact) :=
      ⟨fun _ _ _ hab hbc => le_trans hbc hab⟩
    haveI hto : IsTotal Enhanced.PrioritySkill
        (fun a b => b.market_impact ≤ a.market_impact) :=
      ⟨fun a b => le_total b.market_impact a.market_impact⟩
    exact List.sorted_insertionSort _ _
  · intro k
    exact insertionSort_filter_impact (Enhanced.priorityEntries missing trending) k
  · intro p hp
    have hp2 : p ∈ Enhanced.priorityEntries missing trending :=
      ((List.perm_insertionSort _ _).mem_iff).1 hp
    unfold Enhanced.priorityEntries at hp2
    rw [List.mem_filterMap] at hp2
    obtain ⟨a, _, hfa⟩ := hp2
    rcases ht : trending a with _ | d
    · rw [ht] at hfa
      exact absurd hfa (by simp)
    · rw [ht] at hfa
      simp only [Option.some_inj] at hfa
      refine ⟨d, ?_, ?_, ?_⟩
      · rw [← hfa]
        exact ht
      · rw [← hfa]
      · rw [← hfa]

/-- Witness for C7: the amended theorem applied to the one-skill table
with demand 7000, whose entry is priority high, including the stability
equation at its impact value 9. -/
theorem C7_priority_skills_sorted_witness :
    (Enhanced.get_priority_skills ["X"] trendX).Pairwise
      (fun a b => b.market_impact ≤ a.market_impact) ∧
    (Enhanced.get_priority_skills ["X"] trendX).filter
        (fun p => p.market_impact = 9) =
      (Enhanced.priorityEntries ["X"] trendX).filter
        (fun p => p.market_impact = 9) ∧
    (∃ d, trendX (⟨"X", "high", 9⟩ : Enhanced.PrioritySkill).skill = some d ∧
      (⟨"X", "high", 9⟩ : Enhanced.PrioritySkill).market_impact = d.salary_impact ∧
      (⟨"X", "high", 9⟩ : Enhanced.PrioritySkill).priority =
        (if 6000 < d.demand then "high" else "medium")) :=
  ⟨(C7_priority_skills_sorted ["X"] trendX).1,
   (C7_priority_skills_sorted ["X"] trendX).2.1 9,
   (C7_priority_skills_sorted ["X"] trendX).2.2 ⟨"X", "high", 9⟩ (by decide)⟩

/-- Counterexample for C8: an extracted expectation of 0 is falsy, so the
code returns 100, while the below-range formula of the claim yields 0. -/
theorem C8_counterexample_zero_expected :
    Phase3.calculate_salary_fit (some 0) 1000 2000 = 100 ∧
    ((0 : ℚ) / 1000 * 100) ≠ 100 := by
  constructor
  · rfl
  · norm_num

/-- C8 (amended): the salary fit is 100 when no expectation was extracted
and also when the extracted expectation is 0 (falsy, treated as no
expectation); for a positive expectation against a well-formed range it
is 100 inside the range, expectation over minimum times 100 below it, and
maximum over expectation times 100 above it. -/
theorem C8_salary_fit_cases :
    (∀ m M, Phase3.calculate_salary_fit none m M = 100) ∧
    (∀ m M, Phase3.calculate_salary_fit (some 0) m M = 100) ∧
    (∀ v m M, 1 ≤ v → m ≤ M →
      ((m ≤ v ∧ v ≤ M → Phase3.calculate_salary_fit (some v) m M = 100) ∧
       (v < m → Phase3.calculate_salary_fit (some v) m M = (v : ℚ) / m * 100) ∧
       (M < v → Phase3.calculate_salary_fit (some v) m M = (M : ℚ) / v * 100))) := by
  refine ⟨fun m M => rfl, fun m M => rfl, ?_⟩
  intro v m M hv hmM
  have hred : Phase3.calculate_salary_fit (some v) m M =
      (if v = 0 then (100 : ℚ)
       else if m ≤ v ∧ v ≤ M then 100
       else if v < m then (v : ℚ) / m * 100
       else (M : ℚ) / v * 100) := rfl
  have hv0 : ¬ v = 0 := by omega
  refine ⟨?_, ?_, ?_⟩
  · intro hin
    rw [hred, if_neg hv0, if_pos hin]
  · intro hlt
    have hnin : ¬ (m ≤ v ∧ v ≤ M) := by omega
    rw [hred, if_neg hv0, if_neg hnin, if_pos hlt]
  · intro hgt
    have hnin : ¬ (m ≤ v ∧ v ≤ M) := by omega
    have hnlt : ¬ v < m := by omega
    rw [hred, if_neg hv0, if_neg hnin, if_neg hnlt]

/-- Witness for C8: the fit evaluated with the range 1000 to 2000 at no
expectation, a zero expectation, and expectations inside, below and above
the range. -/
theorem C8_salary_fit_cases_witness :
    Phase3.calculate_salary_fit none 1000 2000 = 100 ∧
    Phase3.calculate_salary_fit (some 0) 1000 2000 = 100 ∧
    Phase3.calculate_salary_fit (some 1500) 1000 2000 = 100 ∧
    Phase3.calculate_salary_fit (some 500) 1000 2000 =
      ((500 : ℕ) : ℚ) / ((1000 : ℕ) : ℚ) * 100 ∧
    Phase3.calculate_salary_fit (some 4000) 1000 2000 =
      ((2000 : ℕ) : ℚ) / ((4000 : ℕ) : ℚ) * 100 :=
  ⟨C8_salary_fit_cases.1 1000 2000,
   C8_salary_fit_cases.2.1 1000 2000,
   (C8_salary_fit_cases.2.2 1500 1000 2000 (by norm_num) (by norm_num)).1
     ⟨by norm_num, by norm_num⟩,
   (C8_salary_fit_cases.2.2 500 1000 2000 (by norm_num) (by norm_num)).2.1 (by norm_num),
   (C8_salary_fit_cases.2.2 4000 1000 2000 (by norm_num) (by norm_num)).2.2 (by norm_num)⟩

end ResumeParser
